import Mathlib

/-!
Verification of the idempotent query-replay and result-reporting logic of the
`postgresql_query` and `impala_query` modules (`src/library/postgresql_query.py`,
`src/library/impala_query.py`).  The Python functions are shallowly embedded as
executable Lean functions; external effects (database connection, file system,
cursor state) are captured by environment records and event traces.
-/

namespace SqlRunner

/-- Characters matched by Python's regex class for whitespace (ASCII part),
used by the pattern in `impala_query.py` line 235 (`re.compile(r';\s+')`). -/
def isPySpace (c : Char) : Bool :=
  c = ' ' || c = '\t' || c = '\n' || c = '\r' || c = '\x0b' || c = '\x0c'

/-- Whether a character list starts with a Python-whitespace character. -/
def headIsWs : List Char → Bool
  | [] => false
  | c :: _ => isPySpace c

/-- Python `str.strip('\n')` on the underlying character list: removes every
leading and trailing newline character (`impala_query.py` lines 217 and 239,
`postgresql_query.py` line 281). -/
def pyStripNl (l : List Char) : List Char :=
  ((l.dropWhile (fun c => c = '\n')).reverse.dropWhile (fun c => c = '\n')).reverse

/-- Python `str.strip('\n')` on strings. -/
def pyStrip (s : String) : String :=
  String.mk (pyStripNl s.data)

/-- One scanning pass of Python `re.sub(r';\s+', ';\n', s)`
(`impala_query.py` lines 235-236).  The first argument is true while the
scanner is inside the whitespace run of a match being consumed (the regex
`\s+` is greedy, so the whole run is replaced by a single newline). -/
def subGo : Bool → List Char → List Char
  | _, [] => []
  | skipping, c :: rest =>
    if skipping && isPySpace c then subGo true rest
    else if c = ';' && headIsWs rest then ';' :: '\n' :: subGo true rest
    else c :: subGo false rest

/-- Python `re.sub(r';\s+', ';\n', s)` on a character list. -/
def subSemiWs (l : List Char) : List Char :=
  subGo false l

/-- Python `str.split(';\n')`: split on every non-overlapping occurrence of a
semicolon immediately followed by a newline, removing the delimiter
(`impala_query.py` lines 236 and 239). -/
def splitSemiNl : List Char → List (List Char)
  | [] => [[]]
  | [c] => [[c]]
  | c :: d :: rest =>
    if c = ';' && d = '\n' then [] :: splitSemiNl rest
    else
      match splitSemiNl (d :: rest) with
      | [] => [[c]]
      | p :: ps => (c :: p) :: ps

/-- The statement splitter of `impala_query.py` line 236:
`[line for line in compiled_regex.sub(';\n', sql_file).split(';\n') if line]`
applied to the (already newline-stripped) file content. -/
def splitStatements (s : String) : List String :=
  ((splitSemiNl (subSemiWs s.data)).filter (fun l => !l.isEmpty)).map String.mk

/-- Joining statements back with the `;`+linebreak delimiter (the delimiter
used by the splitter), on character lists. -/
def joinSemiNl : List (List Char) → List Char
  | [] => []
  | [p] => p
  | p :: ps => p ++ ';' :: '\n' :: joinSemiNl ps

/-- Joining statements back with the `;`+linebreak delimiter, on strings. -/
def joinStatements (l : List String) : String :=
  String.mk (joinSemiNl (l.map String.data))

/-- `loadExecuted` of the spec, exactly as `impala_query.py` line 239 computes
it: `[line for line in query_log.read().strip('\n').split(';\n') if line]`. -/
def loadExecuted (logContent : String) : List String :=
  ((splitSemiNl (pyStripNl logContent.data)).filter (fun l => !l.isEmpty)).map String.mk

/-- Python `str.endswith(suffix)` (`impala_query.py` line 214,
`postgresql_query.py` line 279). -/
def listLeads : List Char → List Char → Bool
  | [], _ => true
  | _ :: _, [] => false
  | a :: as, b :: bs => a = b && listLeads as bs

/-- Python `suffix in s` is not needed; this is `s.endswith(suffix)`. -/
def pyEndsWith (suffix s : String) : Bool :=
  listLeads suffix.data.reverse s.data.reverse

/-- Python substring containment `needle in hay` (`postgresql_query.py`
line 334: `"SELECT" in statusmessage`). -/
def listInside (needle : List Char) : List Char → Bool
  | [] => needle.isEmpty
  | c :: rest => listLeads needle (c :: rest) || listInside needle rest

/-- Python substring containment on strings. -/
def pySubstr (needle hay : String) : Bool :=
  listInside needle.data hay.data

/-- A result row, as produced by the database driver (column name to value). -/
abbrev Row := List (String × String)

/-- The ways a run can terminate through `module.fail_json`, or crash on an
unbound name: `UnboundLocalError` for unassigned function locals,
`NameError` for the never-imported module-level name `impala`. -/
inductive Failure where
  | connectionFailed
  | sourceUnavailable (path : String)
  | noQueryLog
  | logUnavailable (path : String)
  | executionFailed (stmt : String)
  | unboundLocal (name : String)
  | nameError (name : String)
deriving DecidableEq

/-- Externally visible events of a run, in order. -/
inductive Ev where
  | connectAttempt
  | fileRead (path : String)
  | logOpen (path : String)
  | exec (stmt : String)
  | logWrite (chunk : String)
  | rollback
  | commit
  | closeLog
  | closeConn
deriving DecidableEq

/-- Statements submitted to the executor, extracted from a trace. -/
def submittedOf (evs : List Ev) : List String :=
  evs.filterMap fun e =>
    match e with
    | Ev.exec s => some s
    | _ => none

/-- Chunks appended to the replay log, extracted from a trace. -/
def appendedOf (evs : List Ev) : List String :=
  evs.filterMap fun e =>
    match e with
    | Ev.logWrite s => some s
    | _ => none

/-! ## PostgreSQL module (`postgresql_query.py`, `main`) -/

/-- The external world of a PostgreSQL run: module parameters together with
the behaviour of the file system and the psycopg2 driver. -/
structure PgEnv where
  check_mode : Bool
  query : String
  fact : Option String
  /-- whether `psycopg2.connect` succeeds (line 270) -/
  connectOk : Bool
  /-- content of the query file when it can be opened and read (line 281) -/
  fileContent : Option String
  /-- whether `cursor.execute` succeeds (line 298) -/
  execOk : Bool
  /-- `cursor.rowcount` after execution (line 305) -/
  driverRowcount : Int
  /-- result of `cursor.fetchall()`; `none` models `psycopg2.ProgrammingError` (lines 310-312) -/
  fetchResult : Option (List Row)
  /-- `cursor.statusmessage` (line 330) -/
  statusmessage : String

/-- The structure passed to `module.exit_json` (lines 347-350). -/
structure PgOutput where
  changed : Bool
  stout_lines : String
  query_results : List Row
  /-- `ansible_facts`; in this variant the key is `fact`, which may be `None` -/
  ansible_facts : List (Option String × List Row)
  rowcount : Nat
deriving DecidableEq

/-- Query source resolution (`postgresql_query.py` lines 278-285): a `.sql`
path is read and stripped of newlines; anything else is used verbatim. -/
def pgResolve (query : String) (fileContent : Option String) :
    List Ev × Except Failure String :=
  if pyEndsWith (".sql") query then
    match fileContent with
    | some c => ([Ev.fileRead query], Except.ok (pyStrip c))
    | none => ([Ev.fileRead query], Except.error (Failure.sourceUnavailable query))
  else ([], Except.ok query)

/-- Result shaping (`postgresql_query.py` lines 304-328): when the driver
reports a positive row count, fetch (swallowing a fetch failure into an empty
list), report the fetched length, and build `ansible_facts = {fact: results}`;
otherwise `rowcount = 0` and `ansible_facts` is never assigned (`none`). -/
def pgReport (driverRowcount : Int) (fetchResult : Option (List Row))
    (fact : Option String) :
    List Row × Nat × Option (List (Option String × List Row)) :=
  if 0 < driverRowcount then
    let query_results := fetchResult.getD []
    (query_results, query_results.length, some [(fact, query_results)])
  else ([], 0, none)

/-- Change detection (`postgresql_query.py` lines 334-337). -/
def pgChanged (statusmessage : String) : Bool :=
  if pySubstr ("SELECT") statusmessage then false else true

/-- The `main` of `postgresql_query.py` (lines 219-350), as a function from
the external world to the trace of effects and the terminal outcome. -/
def pgMain (env : PgEnv) : List Ev × Except Failure PgOutput :=
  if !env.connectOk then
    ([Ev.connectAttempt], Except.error Failure.connectionFailed)
  else
    let r := pgResolve env.query env.fileContent
    match r.2 with
    | Except.error f => (Ev.connectAttempt :: r.1, Except.error f)
    | Except.ok q =>
      if !env.execOk then
        (Ev.connectAttempt :: r.1 ++ [Ev.exec q],
         Except.error (Failure.executionFailed q))
      else
        let rep := pgReport env.driverRowcount env.fetchResult env.fact
        let changed := pgChanged env.statusmessage
        let txn := if changed then
            [if env.check_mode then Ev.rollback else Ev.commit]
          else []
        let trace := Ev.connectAttempt :: r.1 ++ [Ev.exec q] ++ txn ++ [Ev.closeConn]
        match rep.2.2 with
        | some facts =>
          (trace, Except.ok ⟨changed, env.statusmessage, rep.1, facts, rep.2.1⟩)
        | none =>
          -- line 349 references `ansible_facts`, which is only assigned on
          -- the positive-rowcount branch (line 316): UnboundLocalError
          (trace, Except.error (Failure.unboundLocal ("ansible_facts")))

/-! ## Impala module (`impala_query.py`, `main`) -/

/-- The external world of an Impala run. -/
structure ImpalaEnv where
  query : String
  fact : Option String
  /-- whether `connect`/`cursor` succeed (lines 205-206) -/
  connectOk : Bool
  /-- content of the query file when it can be opened and read (lines 216-217) -/
  fileContent : Option String
  /-- the `query_log` module parameter (line 222); `none` or `some ""` is falsy -/
  query_log : Option String
  /-- whether opening the log for append-and-read succeeds (lines 226-227) -/
  logOpenOk : Bool
  /-- full content of the replay log at the start of the run (line 239) -/
  logContent : String
  /-- whether `cursor.execute` succeeds for a given statement (line 251) -/
  execOk : String → Bool
  /-- `cursor.rowcount` after the loop (line 263) -/
  driverRowcount : Int
  /-- shaped rows from `cursor.fetchall()`; `none` models the fetch raising
  an exception (lines 267-272) -/
  fetchResult : Option (List Row)
  /-- `cursor.status()` (line 283) -/
  status : String

/-- The structure passed to `module.exit_json` (lines 290-293). -/
structure ImpalaOutput where
  changed : Bool
  stout_lines : String
  query_results : List Row
  /-- `ansible_facts`; this variant only inserts a key when `fact` is set -/
  ansible_facts : List (String × List Row)
  rowcount : Nat
deriving DecidableEq

/-- The `sql_file` local of `impala_query.py` (lines 214-220): assigned only
when the query parameter names a `.sql` file; `none` models the local staying
unbound. -/
def impalaSqlFile (query : String) (fileContent : Option String) :
    List Ev × Except Failure (Option String) :=
  if pyEndsWith (".sql") query then
    match fileContent with
    | some c => ([Ev.fileRead query], Except.ok (some (pyStrip c)))
    | none => ([Ev.fileRead query], Except.error (Failure.sourceUnavailable query))
  else ([], Except.ok none)

/-- `impala_query.py` line 236:
`queries = [...] if sql_file else [query]`.  Evaluating the condition with
`sql_file` unbound raises `UnboundLocalError`; a bound empty string is falsy
and yields the raw query parameter. -/
def impalaStatements (query : String) : Option String → Except Failure (List String)
  | some content =>
    Except.ok (if content ≠ ("") then splitStatements content else [query])
  | none => Except.error (Failure.unboundLocal ("sql_file"))

/-- The replay-filtered execution loop (`impala_query.py` lines 241-256):
each statement not in `already` is submitted; on success the text followed by
a single newline is appended to the log (line 252: `query_log.write(query + '\n')`);
on failure the run aborts. Returns the loop's trace and the failing statement
if any. -/
def impalaLoopTrace (already : List String) (execOk : String → Bool) :
    List String → List Ev × Option String
  | [] => ([], none)
  | q :: rest =>
    if q ∈ already then impalaLoopTrace already execOk rest
    else if execOk q then
      let (evs, err) := impalaLoopTrace already execOk rest
      (Ev.exec q :: Ev.logWrite (q ++ ("\n")) :: evs, err)
    else ([Ev.exec q], some q)

/-- Result shaping (`impala_query.py` lines 261-281): `ansible_facts` is
initialised to the empty mapping and only receives an entry when a fact name
was supplied and the driver row count is positive.  When the fetch raises,
the handler `except impala.error.ProgrammingError:` (line 271) is evaluated,
but the module never binds the name `impala` (line 143 imports only
`connect`), so evaluating the clause raises `NameError` and the run crashes
instead of swallowing the failure. -/
def impalaReport (driverRowcount : Int) (fetchResult : Option (List Row))
    (fact : Option String) :
    Except Failure (List Row × Nat × List (String × List Row)) :=
  if 0 < driverRowcount then
    match fetchResult with
    | some query_results =>
      Except.ok (query_results, query_results.length,
        match fact with
        | some k => [(k, query_results)]
        | none => [])
    | none => Except.error (Failure.nameError ("impala"))
  else Except.ok ([], 0, [])

/-- The `main` of `impala_query.py` (lines 161-293), as a function from the
external world to the trace of effects and the terminal outcome. -/
def impalaMain (env : ImpalaEnv) : List Ev × Except Failure ImpalaOutput :=
  if !env.connectOk then
    ([Ev.connectAttempt], Except.error Failure.connectionFailed)
  else
    let r := impalaSqlFile env.query env.fileContent
    match r.2 with
    | Except.error f => (Ev.connectAttempt :: r.1, Except.error f)
    | Except.ok sql_file =>
      if env.query_log = none ∨ env.query_log = some ("") then
        (Ev.connectAttempt :: r.1, Except.error Failure.noQueryLog)
      else
        let logPath := env.query_log.getD ("")
        if !env.logOpenOk then
          (Ev.connectAttempt :: r.1 ++ [Ev.logOpen logPath],
           Except.error (Failure.logUnavailable logPath))
        else
          let base := Ev.connectAttempt :: r.1 ++ [Ev.logOpen logPath]
          match impalaStatements env.query sql_file with
          | Except.error f => (base, Except.error f)
          | Except.ok queries =>
            let lp := impalaLoopTrace (loadExecuted env.logContent) env.execOk queries
            match lp.2 with
            | some q => (base ++ lp.1, Except.error (Failure.executionFailed q))
            | none =>
              -- the log is closed (lines 258-259) before reporting (261-281)
              match impalaReport env.driverRowcount env.fetchResult env.fact with
              | Except.error f => (base ++ lp.1 ++ [Ev.closeLog], Except.error f)
              | Except.ok rep =>
                (base ++ lp.1 ++ [Ev.closeLog, Ev.commit, Ev.closeConn],
                 Except.ok ⟨true, env.status, rep.1, rep.2.2, rep.2.1⟩)

/-- The replay-log content after a run, given its initial content and the
run's trace: the file is opened in append mode and each `logWrite` chunk is
appended in order. -/
def logAfter (logContent : String) (evs : List Ev) : String :=
  logContent ++ String.join (appendedOf evs)

/-! ## Helper lemmas on the execution loop -/

theorem impalaLoopTrace_err_none (already : List String) (qs : List String) :
    (impalaLoopTrace already (fun _ => true) qs).2 = none := by
  induction qs with
  | nil => rfl
  | cons q rest ih =>
    by_cases hq : q ∈ already <;> simp [impalaLoopTrace, hq, ih]

theorem submittedOf_loop (already : List String) (qs : List String) :
    submittedOf (impalaLoopTrace already (fun _ => true) qs).1 =
      qs.filter (fun q => decide (q ∉ already)) := by
  induction qs with
  | nil => rfl
  | cons q rest ih =>
    by_cases hq : q ∈ already <;>
      simp [impalaLoopTrace, hq, submittedOf, List.filter_cons, ih] <;>
      simpa [submittedOf] using ih

theorem appendedOf_loop (already : List String) (qs : List String) :
    appendedOf (impalaLoopTrace already (fun _ => true) qs).1 =
      (qs.filter (fun q => decide (q ∉ already))).map (fun q => q ++ ("\n")) := by
  induction qs with
  | nil => rfl
  | cons q rest ih =>
    by_cases hq : q ∈ already <;>
      simp [impalaLoopTrace, hq, appendedOf, List.filter_cons, ih] <;>
      simpa [appendedOf] using ih


/-! ## Claim theorems: replay log (C1, C2, C3) -/

/-- C1: in an Impala run in which every submission succeeds, a statement
produced by the query source resolver is submitted to the executor if and
only if its exact text is not in the set obtained by reading the replay log,
stripping the surrounding line breaks and splitting on `;`+linebreak
(`loadExecuted`); statements in that set are skipped silently, neither
submitted nor appended again to the log. -/
theorem impala_replay_filter (logContent : String) (qs : List String) :
    (impalaLoopTrace (loadExecuted logContent) (fun _ => true) qs).2 = none ∧
    submittedOf (impalaLoopTrace (loadExecuted logContent) (fun _ => true) qs).1 =
      qs.filter (fun q => decide (q ∉ loadExecuted logContent)) ∧
    appendedOf (impalaLoopTrace (loadExecuted logContent) (fun _ => true) qs).1 =
      (qs.filter (fun q => decide (q ∉ loadExecuted logContent))).map
        (fun q => q ++ ("\n")) :=
  ⟨impalaLoopTrace_err_none (loadExecuted logContent) qs,
   submittedOf_loop (loadExecuted logContent) qs,
   appendedOf_loop (loadExecuted logContent) qs⟩

/-- C2: evaluation of the logging code at a two-statement run on an empty
log.  Each executed statement is appended as its text followed by a bare
newline (line 252: `query_log.write(query + '\n')`), NOT followed by `;` and
a newline; consequently the next run's `loadExecuted` on the resulting log
merges both entries into one and recognises neither statement. -/
theorem impala_log_write_format :
    appendedOf (impalaLoopTrace (loadExecuted ("")) (fun _ => true)
        [("A"), ("B")]).1 = [("A\n"), ("B\n")] ∧
    logAfter ("") (impalaLoopTrace (loadExecuted ("")) (fun _ => true)
        [("A"), ("B")]).1 = ("A\nB\n") ∧
    loadExecuted ("A\nB\n") = [("A\nB")] ∧
    ("A") ∉ loadExecuted ("A\nB\n") ∧
    ("B") ∉ loadExecuted ("A\nB\n") := by
  decide

/-- C3 counterexample: the statement `INSERT INTO t VALUES (1)` is absent
from the (empty) replay log and occurs twice in the input batch; after the
run it has been submitted twice and appended to the log twice, not exactly
once. -/
theorem impala_dup_batch_counterexample :
    (("INSERT INTO t VALUES (1)") ∉ loadExecuted ("")) ∧
    (submittedOf (impalaLoopTrace (loadExecuted ("")) (fun _ => true)
        [("INSERT INTO t VALUES (1)"), ("INSERT INTO t VALUES (1)")]).1).count
      ("INSERT INTO t VALUES (1)") = 2 ∧
    (appendedOf (impalaLoopTrace (loadExecuted ("")) (fun _ => true)
        [("INSERT INTO t VALUES (1)"), ("INSERT INTO t VALUES (1)")]).1).count
      ("INSERT INTO t VALUES (1)\n") = 2 := by
  decide

theorem append_nl_inj (a b : String) (h : a ++ ("\n") = b ++ ("\n")) : a = b := by
  have hd := congrArg String.data h
  simp only [String.data_append] at hd
  exact String.ext (List.append_cancel_right hd)

/-- C3 (amended): for a statement S not present in the replay log at the
start of a successful Impala run, S is appended to the log exactly once per
occurrence of S in the input batch (the in-memory executed set is not updated
during the run, so duplicated occurrences are each executed and logged); in
particular S appears exactly once when it occurs exactly once in the batch. -/
theorem impala_append_count (already : List String) (qs : List String)
    (S : String) (h : S ∉ already) :
    (appendedOf (impalaLoopTrace already (fun _ => true) qs).1).count
      (S ++ ("\n")) = qs.count S := by
  rw [appendedOf_loop]
  rw [List.count_map_of_injective _ _ (fun a b hab => append_nl_inj a b hab)]
  induction qs with
  | nil => rfl
  | cons q rest ih =>
    by_cases hq : q ∈ already
    · have hqS : q ≠ S := fun he => h (he ▸ hq)
      simp only [decide_not] at ih
      simp [List.filter_cons, List.count_cons, hq, hqS, ih]
    · simp only [decide_not] at ih
      simp [List.filter_cons, List.count_cons, hq, ih]

/-- Witness for `impala_append_count` at a concrete input. -/
theorem impala_append_count_witness :
    (("X") ∉ ([] : List String)) ∧
    (appendedOf (impalaLoopTrace [] (fun _ => true) [("X")]).1).count
      (("X") ++ ("\n")) = List.count ("X") [("X")] :=
  ⟨by decide, impala_append_count [] [("X")] ("X") (by decide)⟩

/-! ## Characterisation of successful runs -/

/-- The transaction events of a PostgreSQL run (lines 339-343). -/
def pgTxnEvs (env : PgEnv) : List Ev :=
  if pgChanged env.statusmessage then
    [if env.check_mode then Ev.rollback else Ev.commit]
  else []

theorem pgMain_ok_char (env : PgEnv) (out : PgOutput)
    (hp : (pgMain env).2 = Except.ok out) :
    env.connectOk = true ∧ env.execOk = true ∧ 0 < env.driverRowcount ∧
    out.changed = pgChanged env.statusmessage ∧
    out.query_results = env.fetchResult.getD [] ∧
    out.rowcount = (env.fetchResult.getD []).length ∧
    out.ansible_facts = [(env.fact, env.fetchResult.getD [])] ∧
    ∃ q, (pgMain env).1 =
      Ev.connectAttempt :: (pgResolve env.query env.fileContent).1
        ++ [Ev.exec q] ++ pgTxnEvs env ++ [Ev.closeConn] := by
  by_cases hc : env.connectOk
  · by_cases hex : env.execOk
    · by_cases hrc : 0 < env.driverRowcount
      · rcases hr : (pgResolve env.query env.fileContent).2 with f | q
        · simp [pgMain, hc, hr] at hp
        · simp only [pgMain, hc, Bool.not_true, Bool.false_eq_true, if_false, hr,
            hex, pgReport, hrc, if_true] at hp
          rw [Except.ok.injEq] at hp
          subst hp
          refine ⟨hc, hex, hrc, rfl, rfl, rfl, rfl, ⟨q, ?_⟩⟩
          simp [pgMain, hc, hr, hex, pgTxnEvs, pgReport, hrc]
      · rcases hr : (pgResolve env.query env.fileContent).2 with f | q
        · simp [pgMain, hc, hr] at hp
        · simp [pgMain, hc, hr, hex, pgReport, hrc] at hp
    · rcases hr : (pgResolve env.query env.fileContent).2 with f | q
      · simp [pgMain, hc, hr] at hp
      · simp [pgMain, hc, hr, hex] at hp
  · simp [pgMain, hc] at hp

theorem impalaLoopTrace_no_txn (already : List String) (f : String → Bool)
    (qs : List String) :
    Ev.rollback ∉ (impalaLoopTrace already f qs).1 ∧
    Ev.commit ∉ (impalaLoopTrace already f qs).1 := by
  induction qs with
  | nil => simp [impalaLoopTrace]
  | cons q rest ih =>
    by_cases hq : q ∈ already
    · simpa [impalaLoopTrace, hq] using ih
    · by_cases he : f q <;> simp [impalaLoopTrace, hq, he, ih]

theorem impalaMain_ok_char (env : ImpalaEnv) (out : ImpalaOutput)
    (hi : (impalaMain env).2 = Except.ok out) :
    out.changed = true ∧
    out.query_results = (if 0 < env.driverRowcount then env.fetchResult.getD [] else []) ∧
    out.rowcount = (if 0 < env.driverRowcount then (env.fetchResult.getD []).length else 0) ∧
    out.ansible_facts = (if 0 < env.driverRowcount then
      (match env.fact with
       | some k => [(k, env.fetchResult.getD [])]
       | none => []) else []) ∧
    Ev.commit ∈ (impalaMain env).1 ∧ Ev.rollback ∉ (impalaMain env).1 := by
  by_cases hc : env.connectOk
  · rcases hr : (impalaSqlFile env.query env.fileContent).2 with f | sql_file
    · simp [impalaMain, hc, hr] at hi
    · by_cases hlog : env.query_log = none ∨ env.query_log = some ("")
      · simp [impalaMain, hc, hr, hlog] at hi
      · by_cases hlo : env.logOpenOk
        · rcases hst : impalaStatements env.query sql_file with f | queries
          · simp [impalaMain, hc, hr, hlog, hlo, hst] at hi
          · rcases herr : (impalaLoopTrace (loadExecuted env.logContent)
                env.execOk queries).2 with _ | q
            · have hnt := impalaLoopTrace_no_txn (loadExecuted env.logContent)
                env.execOk queries
              have hsf : Ev.rollback ∉ (impalaSqlFile env.query
                  env.fileContent).1 := by
                simp only [impalaSqlFile]
                by_cases hq : pyEndsWith (".sql") env.query
                · rcases hfc : env.fileContent with _ | c <;> simp [hq, hfc]
                · simp [hq]
              by_cases hrc : (0 : Int) < env.driverRowcount
              · rcases hfr : env.fetchResult with _ | r
                · -- fetch raises; the except clause raises NameError: no
                  -- completed run exists on this path
                  simp [impalaMain, hc, hr, hlog, hlo, hst, herr,
                    impalaReport, hrc, hfr] at hi
                · simp [impalaMain, hc, hr, hlog, hlo, hst, herr,
                    impalaReport, hrc, hfr] at hi
                  subst hi
                  refine ⟨rfl, by simp [hrc, hfr], by simp [hrc, hfr],
                    by simp [hrc, hfr], ?_, ?_⟩
                  · simp [impalaMain, hc, hr, hlog, hlo, hst, herr,
                      impalaReport, hrc, hfr]
                  · simp [impalaMain, hc, hr, hlog, hlo, hst, herr,
                      impalaReport, hrc, hfr, List.mem_append, List.mem_cons,
                      hsf, hnt.1]
              · simp [impalaMain, hc, hr, hlog, hlo, hst, herr,
                  impalaReport, hrc] at hi
                subst hi
                refine ⟨rfl, by simp [hrc], by simp [hrc], by simp [hrc],
                  ?_, ?_⟩
                · simp [impalaMain, hc, hr, hlog, hlo, hst, herr,
                    impalaReport, hrc]
                · simp [impalaMain, hc, hr, hlog, hlo, hst, herr,
                    impalaReport, hrc, List.mem_append, List.mem_cons,
                    hsf, hnt.1]
            · simp [impalaMain, hc, hr, hlog, hlo, hst, herr] at hi
        · simp [impalaMain, hc, hr, hlog, hlo] at hi
  · simp [impalaMain, hc] at hi

/-! ## Concrete environments used in closed theorems -/

/-- A PostgreSQL run with a literal (non-`.sql`) query returning one row. -/
def pgEnvLiteral : PgEnv :=
  { check_mode := false, query := "SELECT 1", fact := none, connectOk := true,
    fileContent := none, execOk := true, driverRowcount := 1,
    fetchResult := some [[(("a"), ("1"))]], statusmessage := "SELECT 1" }

/-- An Impala run with a literal (non-`.sql`) query. -/
def impalaEnvLiteral : ImpalaEnv :=
  { query := "SELECT 1", fact := none, connectOk := true, fileContent := none,
    query_log := some ("log"), logOpenOk := true, logContent := "",
    execOk := fun _ => true, driverRowcount := 1,
    fetchResult := some [[(("a"), ("1"))]], status := "" }

/-- A PostgreSQL run whose query file is missing, with a working database. -/
def pgEnvMissingFile : PgEnv :=
  { check_mode := false, query := "missing.sql", fact := none,
    connectOk := true, fileContent := none, execOk := true,
    driverRowcount := 0, fetchResult := none, statusmessage := "" }

/-- An Impala run whose query file is missing, with a working database. -/
def impalaEnvMissingFile : ImpalaEnv :=
  { query := "missing.sql", fact := none, connectOk := true,
    fileContent := none, query_log := some ("log"), logOpenOk := true,
    logContent := "", execOk := fun _ => true, driverRowcount := 0,
    fetchResult := none, status := "" }

/-- A PostgreSQL `SELECT` matching zero rows. -/
def pgEnvZeroRows : PgEnv :=
  { check_mode := false, query := "SELECT * FROM t", fact := none,
    connectOk := true, fileContent := none, execOk := true,
    driverRowcount := 0, fetchResult := some [], statusmessage := "SELECT 0" }

/-- An Impala run of a one-statement `.sql` file that completes with one
result row. -/
def impalaEnvLiteralSql : ImpalaEnv :=
  { query := "q.sql", fact := none, connectOk := true,
    fileContent := some ("SELECT 1"), query_log := some ("log"),
    logOpenOk := true, logContent := "", execOk := fun _ => true,
    driverRowcount := 1, fetchResult := some [[(("a"), ("1"))]], status := "" }

/-- A PostgreSQL UPDATE: positive driver row count but no fetchable result
set (the fetch raises and is swallowed). -/
def pgEnvUpdate : PgEnv :=
  { check_mode := false, query := "UPDATE t SET x = 1", fact := none,
    connectOk := true, fileContent := none, execOk := true,
    driverRowcount := 3, fetchResult := none, statusmessage := "UPDATE 3" }

/-- An Impala run with a positive driver row count but no fetchable result
set (the fetch raises and is swallowed). -/
def impalaEnvUpdate : ImpalaEnv :=
  { query := "u.sql", fact := none, connectOk := true,
    fileContent := some ("INSERT INTO t VALUES (1)"),
    query_log := some ("log"), logOpenOk := true, logContent := "",
    execOk := fun _ => true, driverRowcount := 3, fetchResult := none,
    status := "" }

/-- The two-row result used in the fact-mapping theorems. -/
def rows2 : List Row := [[(("c"), ("1"))], [(("c"), ("2"))]]

/-- A PostgreSQL run with two result rows and no fact name supplied. -/
def pgEnvNoFact : PgEnv :=
  { check_mode := false, query := "SELECT * FROM t", fact := none,
    connectOk := true, fileContent := none, execOk := true,
    driverRowcount := 2, fetchResult := some rows2,
    statusmessage := "SELECT 2" }

/-! ## Claim theorems: resolver and error ordering (C4, C6) -/

/-- C4: evaluation at a literal (non-`.sql`) query parameter.  The
PostgreSQL variant treats it as exactly one statement and submits it; the
Impala variant instead crashes, because line 236 reads the local `sql_file`,
which is only assigned on the `.sql` branch (lines 214-217), so a literal
query raises `UnboundLocalError` and nothing is submitted. -/
theorem literal_query_resolution :
    submittedOf (pgMain pgEnvLiteral).1 = [("SELECT 1")] ∧
    (pgMain pgEnvLiteral).2 =
      Except.ok ⟨false, ("SELECT 1"), [[(("a"), ("1"))]],
        [(none, [[(("a"), ("1"))]])], 1⟩ ∧
    (impalaMain impalaEnvLiteral).2 =
      Except.error (Failure.unboundLocal ("sql_file")) ∧
    submittedOf (impalaMain impalaEnvLiteral).1 = [] := by
  refine ⟨rfl, rfl, rfl, rfl⟩

/-- C6 counterexample: with a reachable database and a missing query file,
both variants do fail with a source-unavailable error carrying the attempted
path, but only after the connection attempt: the trace of each run starts
with the connection attempt and the file read comes second, refuting the
claim that the failure occurs before any connection attempt. -/
theorem source_check_after_connect_counterexample :
    pgMain pgEnvMissingFile =
      ([Ev.connectAttempt, Ev.fileRead ("missing.sql")],
       Except.error (Failure.sourceUnavailable ("missing.sql"))) ∧
    impalaMain impalaEnvMissingFile =
      ([Ev.connectAttempt, Ev.fileRead ("missing.sql")],
       Except.error (Failure.sourceUnavailable ("missing.sql"))) := by
  refine ⟨rfl, ?_⟩
  show impalaMain impalaEnvMissingFile = _
  rfl

/-- C6 (amended): for every run whose query parameter names a `.sql` file
that cannot be read and whose database connection succeeds, the run fails
with a source-unavailable error carrying the attempted path — but only after
the database connection has been attempted: in both variants the trace is the
connection attempt followed by the failing file read. -/
theorem source_unavailable_after_connect (env : PgEnv) (ienv : ImpalaEnv)
    (h1 : env.connectOk = true) (h2 : pyEndsWith (".sql") env.query = true)
    (h3 : env.fileContent = none)
    (h4 : ienv.connectOk = true) (h5 : pyEndsWith (".sql") ienv.query = true)
    (h6 : ienv.fileContent = none) :
    pgMain env = ([Ev.connectAttempt, Ev.fileRead env.query],
      Except.error (Failure.sourceUnavailable env.query)) ∧
    impalaMain ienv = ([Ev.connectAttempt, Ev.fileRead ienv.query],
      Except.error (Failure.sourceUnavailable ienv.query)) := by
  constructor
  · simp [pgMain, h1, pgResolve, h2, h3]
  · simp [impalaMain, h4, impalaSqlFile, h5, h6]

/-- Witness for `source_unavailable_after_connect` at concrete environments. -/
theorem source_unavailable_after_connect_witness :
    pgEnvMissingFile.connectOk = true ∧
    pyEndsWith (".sql") pgEnvMissingFile.query = true ∧
    pgEnvMissingFile.fileContent = none ∧
    impalaEnvMissingFile.connectOk = true ∧
    pyEndsWith (".sql") impalaEnvMissingFile.query = true ∧
    impalaEnvMissingFile.fileContent = none ∧
    (pgMain pgEnvMissingFile =
      ([Ev.connectAttempt, Ev.fileRead pgEnvMissingFile.query],
       Except.error (Failure.sourceUnavailable pgEnvMissingFile.query)) ∧
     impalaMain impalaEnvMissingFile =
      ([Ev.connectAttempt, Ev.fileRead impalaEnvMissingFile.query],
       Except.error (Failure.sourceUnavailable impalaEnvMissingFile.query))) :=
  ⟨rfl, rfl, rfl, rfl, rfl, rfl,
   source_unavailable_after_connect pgEnvMissingFile impalaEnvMissingFile
     rfl rfl rfl rfl rfl rfl⟩

/-! ## Claim theorems: result reporting (C7, C8, C9, C10) -/

/-- C7: evaluation of the PostgreSQL variant at a `SELECT` matching zero
rows.  The row-count branch computes `rowcount = 0` and the change flag would
be false, but the run does not complete: `ansible_facts` is only assigned
inside the positive-rowcount branch (line 316), so `module.exit_json`
(line 349) raises `UnboundLocalError`. -/
theorem pg_zero_rows_unbound_local :
    (pgMain pgEnvZeroRows).2 =
      Except.error (Failure.unboundLocal ("ansible_facts")) ∧
    pgChanged ("SELECT 0") = false ∧
    pgReport pgEnvZeroRows.driverRowcount pgEnvZeroRows.fetchResult
      pgEnvZeroRows.fact = ([], 0, none) := by
  refine ⟨rfl, rfl, rfl⟩

/-- C8 counterexample: a PostgreSQL run with two result rows and no fact
name supplied completes with `ansible_facts = {None: rows}` — a singleton
mapping with a null key (line 316 builds `{fact: query_results}`
unconditionally) — not the empty mapping the claim requires. -/
theorem pg_fact_none_counterexample :
    (pgMain pgEnvNoFact).2 =
      Except.ok ⟨false, ("SELECT 2"), rows2, [(none, rows2)], 2⟩ ∧
    [((none : Option String), rows2)] ≠ [] := by
  refine ⟨rfl, by decide⟩

/-- C8 (amended): for every run with a positive driver row count, the Impala
variant maps the supplied fact name to the shaped result sequence and leaves
the mapping empty when no fact name was supplied; the PostgreSQL variant
instead always produces the singleton mapping `{fact: results}`, whose key is
the null value when no fact name was supplied. -/
theorem fact_mapping_policy (rc : Int) (rows : List Row) (fact : Option String)
    (hrc : 0 < rc) (_hrows : rows ≠ []) :
    (pgReport rc (some rows) fact).2.2 = some [(fact, rows)] ∧
    impalaReport rc (some rows) fact =
      Except.ok (rows, rows.length,
        (match fact with
         | some k => [(k, rows)]
         | none => [])) := by
  constructor
  · simp [pgReport, hrc]
  · simp [impalaReport, hrc]

/-- Witness for `fact_mapping_policy` at a concrete input. -/
theorem fact_mapping_policy_witness :
    (0 : Int) < 2 ∧ rows2 ≠ [] ∧
    ((pgReport 2 (some rows2) (some ("my_key"))).2.2 =
        some [(some ("my_key"), rows2)] ∧
      impalaReport 2 (some rows2) (some ("my_key")) =
        Except.ok (rows2, rows2.length,
          (match some ("my_key") with
           | some k => [(k, rows2)]
           | none => []))) :=
  ⟨by decide, by decide, fact_mapping_policy 2 rows2 (some ("my_key"))
    (by decide) (by decide)⟩

/-- C9: for every completed run, the PostgreSQL change flag is false exactly
when the final statement status text contains `SELECT` and true otherwise;
when it is true the transaction is rolled back in check mode and committed
otherwise; the Impala change flag is always true and the transaction is
always committed (never rolled back). -/
theorem change_flag_policy (env : PgEnv) (ienv : ImpalaEnv)
    (out : PgOutput) (iout : ImpalaOutput)
    (hp : (pgMain env).2 = Except.ok out)
    (hi : (impalaMain ienv).2 = Except.ok iout) :
    (out.changed = false ↔ pySubstr ("SELECT") env.statusmessage = true) ∧
    (out.changed = true →
      (if env.check_mode then Ev.rollback else Ev.commit) ∈ (pgMain env).1 ∧
      (if env.check_mode then Ev.commit else Ev.rollback) ∉ (pgMain env).1) ∧
    iout.changed = true ∧
    Ev.commit ∈ (impalaMain ienv).1 ∧ Ev.rollback ∉ (impalaMain ienv).1 := by
  obtain ⟨-, -, -, hch, -, -, -, q, htr⟩ := pgMain_ok_char env out hp
  obtain ⟨hich, -, -, -, hicm, hirb⟩ := impalaMain_ok_char ienv iout hi
  refine ⟨?_, ?_, hich, hicm, hirb⟩
  · rw [hch]
    unfold pgChanged
    by_cases hs : pySubstr ("SELECT") env.statusmessage <;> simp [hs]
  · intro hct
    have hpgch : pgChanged env.statusmessage = true := by rw [← hch]; exact hct
    rw [htr]
    unfold pgTxnEvs
    rw [hpgch]
    constructor
    · by_cases hcm : env.check_mode <;> simp [hcm]
    · have hres : Ev.commit ∉ (pgResolve env.query env.fileContent).1 ∧
          Ev.rollback ∉ (pgResolve env.query env.fileContent).1 := by
        unfold pgResolve
        by_cases hq : pyEndsWith (".sql") env.query
        · rcases hfc : env.fileContent with _ | c <;> simp [hq, hfc]
        · simp [hq]
      by_cases hcm : env.check_mode <;>
        simp [hcm, List.mem_append, List.mem_cons, hres.1, hres.2]

/-- Witness for `change_flag_policy` at concrete environments. -/
theorem change_flag_policy_witness :
    (pgMain pgEnvNoFact).2 =
      Except.ok ⟨false, ("SELECT 2"), rows2, [(none, rows2)], 2⟩ ∧
    (impalaMain impalaEnvLiteralSql).2 =
      Except.ok ⟨true, (""), [[(("a"), ("1"))]], [], 1⟩ ∧
    (((⟨false, ("SELECT 2"), rows2, [(none, rows2)], 2⟩ : PgOutput).changed
        = false ↔ pySubstr ("SELECT") pgEnvNoFact.statusmessage = true) ∧
     ((⟨false, ("SELECT 2"), rows2, [(none, rows2)], 2⟩ : PgOutput).changed
        = true →
      (if pgEnvNoFact.check_mode then Ev.rollback else Ev.commit)
          ∈ (pgMain pgEnvNoFact).1 ∧
      (if pgEnvNoFact.check_mode then Ev.commit else Ev.rollback)
          ∉ (pgMain pgEnvNoFact).1) ∧
     (⟨true, (""), [[(("a"), ("1"))]], [], 1⟩ : ImpalaOutput).changed = true ∧
     Ev.commit ∈ (impalaMain impalaEnvLiteralSql).1 ∧
     Ev.rollback ∉ (impalaMain impalaEnvLiteralSql).1) :=
  ⟨rfl, rfl, change_flag_policy pgEnvNoFact impalaEnvLiteralSql _ _ rfl rfl⟩

/-- C10: evaluation at the fetch-failure inputs (positive driver row count,
fetch raising, e.g. after an UPDATE).  The PostgreSQL variant swallows
`psycopg2.ProgrammingError` (lines 309-312) and completes reporting
`rowcount = 0` — the length of the (empty) fetched sequence, not the driver
count 3.  The Impala variant's handler `except impala.error.ProgrammingError:`
(line 271) itself raises `NameError`: the module binds only `connect`
(line 143), never `impala`, so the run crashes instead of reporting 0. -/
theorem rowcount_fetch_failure :
    (pgMain pgEnvUpdate).2 =
      Except.ok ⟨true, ("UPDATE 3"), [], [(none, [])], 0⟩ ∧
    pgReport 3 none none = ([], 0, some [(none, [])]) ∧
    (impalaMain impalaEnvUpdate).2 =
      Except.error (Failure.nameError ("impala")) ∧
    impalaReport 3 none none = Except.error (Failure.nameError ("impala")) := by
  refine ⟨rfl, rfl, rfl, rfl⟩

/-! ## Claim theorems: split/join round-trip (C5) -/

/-- Whether a character list contains a `;` immediately followed by a
whitespace character (the pattern matched by the sub of line 235). -/
def hasSemiWs : List Char → Bool
  | [] => false
  | c :: rest => (c = ';' && headIsWs rest) || hasSemiWs rest

theorem hasSemiWs_cons (c : Char) (rest : List Char) :
    hasSemiWs (c :: rest) = ((c = ';' && headIsWs rest) || hasSemiWs rest) := rfl

theorem subGo_cons (sk : Bool) (c : Char) (rest : List Char) :
    subGo sk (c :: rest) =
      if sk && isPySpace c then subGo true rest
      else if c = ';' && headIsWs rest then ';' :: '\n' :: subGo true rest
      else c :: subGo false rest := rfl

theorem splitSemiNl_cons2 (c d : Char) (rest : List Char) :
    splitSemiNl (c :: d :: rest) =
      if c = ';' && d = '\n' then [] :: splitSemiNl rest
      else
        match splitSemiNl (d :: rest) with
        | [] => [[c]]
        | p :: ps => (c :: p) :: ps := rfl

theorem headIsWs_append (p xs : List Char) (hp : p ≠ []) :
    headIsWs (p ++ xs) = headIsWs p := by
  cases p with
  | nil => exact absurd rfl hp
  | cons c r => rfl

theorem subGo_true_of_not_ws (s : List Char) (h : headIsWs s = false) :
    subGo true s = subGo false s := by
  cases s with
  | nil => rfl
  | cons c rest =>
    have hc : isPySpace c = false := h
    rw [subGo_cons, subGo_cons, hc, Bool.and_false, Bool.false_and]

theorem subGo_false_id (p : List Char) (h : hasSemiWs p = false) :
    subGo false p = p := by
  induction p with
  | nil => rfl
  | cons c rest ih =>
    rw [hasSemiWs_cons, Bool.or_eq_false_iff] at h
    obtain ⟨h1, h2⟩ := h
    rw [subGo_cons, Bool.false_and, if_neg Bool.false_ne_true, h1,
      if_neg Bool.false_ne_true, ih h2]

theorem subGo_boundary (p s : List Char) (hp : hasSemiWs p = false)
    (hs : headIsWs s = false) :
    subGo false (p ++ ';' :: '\n' :: s) = p ++ ';' :: '\n' :: subGo false s := by
  induction p with
  | nil =>
    show subGo false (';' :: '\n' :: s) = ';' :: '\n' :: subGo false s
    have e1 : subGo false (';' :: '\n' :: s) = ';' :: '\n' :: subGo true ('\n' :: s) := by
      rw [subGo_cons]
      have hws : headIsWs ('\n' :: s) = true := rfl
      rw [hws, Bool.false_and, if_neg Bool.false_ne_true]
      have hsemi : (decide (';' = ';') && true) = true := by decide
      rw [hsemi, if_pos rfl]
    have e2 : subGo true ('\n' :: s) = subGo true s := by
      rw [subGo_cons]
      have hws : (true && isPySpace '\n') = true := by decide
      rw [hws, if_pos rfl]
    rw [e1, e2, subGo_true_of_not_ws s hs]
  | cons c rest ih =>
    rw [hasSemiWs_cons, Bool.or_eq_false_iff] at hp
    obtain ⟨h1, h2⟩ := hp
    have hcond : (c = ';' && headIsWs (rest ++ ';' :: '\n' :: s)) = false := by
      cases rest with
      | nil =>
        have hws : headIsWs (([] : List Char) ++ ';' :: '\n' :: s) = false := rfl
        exact Bool.and_eq_false_iff.mpr (Or.inr hws)
      | cons d r =>
        rw [headIsWs_append (d :: r) _ (by simp)]
        exact h1
    show subGo false (c :: (rest ++ ';' :: '\n' :: s)) = _
    rw [subGo_cons, Bool.false_and, if_neg Bool.false_ne_true, hcond,
      if_neg Bool.false_ne_true, ih h2]
    rfl

theorem joinSemiNl_cons (p : List Char) (ps : List (List Char)) (hps : ps ≠ []) :
    joinSemiNl (p :: ps) = p ++ ';' :: '\n' :: joinSemiNl ps := by
  cases ps with
  | nil => exact absurd rfl hps
  | cons q qs => rfl

theorem headIsWs_joinSemiNl (ps : List (List Char)) (hne : ps ≠ [])
    (hall : ∀ p ∈ ps, p ≠ [] ∧ headIsWs p = false) :
    headIsWs (joinSemiNl ps) = false := by
  cases ps with
  | nil => exact absurd rfl hne
  | cons q qs =>
    have hq := hall q (by simp)
    cases qs with
    | nil => exact hq.2
    | cons r rs =>
      rw [joinSemiNl_cons q (r :: rs) (by simp),
        headIsWs_append q _ hq.1]
      exact hq.2

theorem subSemiWs_joinSemiNl (ps : List (List Char)) (hne : ps ≠ [])
    (hall : ∀ p ∈ ps, p ≠ [] ∧ hasSemiWs p = false ∧ headIsWs p = false) :
    subGo false (joinSemiNl ps) = joinSemiNl ps := by
  induction ps with
  | nil => exact absurd rfl hne
  | cons q qs ih =>
    have hq := hall q (by simp)
    cases qs with
    | nil => exact subGo_false_id q hq.2.1
    | cons r rs =>
      have hall2 : ∀ p ∈ r :: rs, p ≠ [] ∧ hasSemiWs p = false ∧ headIsWs p = false :=
        fun p hp => hall p (by simp [hp])
      rw [joinSemiNl_cons q (r :: rs) (by simp)]
      rw [subGo_boundary q _ hq.2.1
        (headIsWs_joinSemiNl (r :: rs) (by simp)
          (fun p hp => ⟨(hall2 p hp).1, (hall2 p hp).2.2⟩))]
      rw [ih (by simp) hall2]

theorem semiWs_cond_false (c d : Char) (r : List Char)
    (h1 : (c = ';' && headIsWs (d :: r)) = false) :
    (c = ';' && d = '\n') = false := by
  by_cases hd : d = '\n'
  · subst hd
    have hws : headIsWs ('\n' :: r) = true := rfl
    rw [hws, Bool.and_true] at h1
    rw [h1, Bool.false_and]
  · have hdb : (decide (d = '\n')) = false := by
      simpa using hd
    rw [hdb, Bool.and_false]

theorem splitSemiNl_single (p : List Char) (h : hasSemiWs p = false) :
    splitSemiNl p = [p] := by
  induction p with
  | nil => rfl
  | cons c rest ih =>
    cases rest with
    | nil => rfl
    | cons d r =>
      rw [hasSemiWs_cons, Bool.or_eq_false_iff] at h
      obtain ⟨h1, h2⟩ := h
      have hcond := semiWs_cond_false c d r h1
      have ihr : splitSemiNl (d :: r) = [d :: r] := ih h2
      rw [splitSemiNl_cons2, hcond, if_neg Bool.false_ne_true, ihr]

theorem splitSemiNl_boundary_head (s : List Char) :
    splitSemiNl (';' :: '\n' :: s) = [] :: splitSemiNl s := by
  rw [splitSemiNl_cons2]
  have hc : (decide ((';' : Char) = ';') && decide (('\n' : Char) = '\n')) = true := by
    decide
  rw [hc, if_pos rfl]

theorem splitSemiNl_boundary (p s : List Char) (h : hasSemiWs p = false) :
    splitSemiNl (p ++ ';' :: '\n' :: s) = p :: splitSemiNl s := by
  induction p with
  | nil => exact splitSemiNl_boundary_head s
  | cons c rest ih =>
    rw [hasSemiWs_cons, Bool.or_eq_false_iff] at h
    obtain ⟨h1, h2⟩ := h
    cases rest with
    | nil =>
      show splitSemiNl (c :: ';' :: '\n' :: s) = [c] :: splitSemiNl s
      have hb : (decide ((';' : Char) = '\n')) = false := by decide
      rw [splitSemiNl_cons2, hb, Bool.and_false, if_neg Bool.false_ne_true,
        splitSemiNl_boundary_head s]
    | cons d r =>
      have hcond := semiWs_cond_false c d r h1
      have ihr := ih h2
      show splitSemiNl (c :: ((d :: r) ++ ';' :: '\n' :: s)) = _
      rw [show (d :: r) ++ ';' :: '\n' :: s = d :: (r ++ ';' :: '\n' :: s) from rfl]
      rw [splitSemiNl_cons2, hcond, if_neg Bool.false_ne_true]
      rw [show splitSemiNl (d :: (r ++ ';' :: '\n' :: s)) = (d :: r) :: splitSemiNl s
        from ihr]

theorem splitSemiNl_joinSemiNl (ps : List (List Char)) (hne : ps ≠ [])
    (hall : ∀ p ∈ ps, p ≠ [] ∧ hasSemiWs p = false ∧ headIsWs p = false) :
    splitSemiNl (joinSemiNl ps) = ps := by
  induction ps with
  | nil => exact absurd rfl hne
  | cons q qs ih =>
    have hq := hall q (by simp)
    cases qs with
    | nil => exact splitSemiNl_single q hq.2.1
    | cons r rs =>
      have hall2 : ∀ p ∈ r :: rs, p ≠ [] ∧ hasSemiWs p = false ∧ headIsWs p = false :=
        fun p hp => hall p (by simp [hp])
      rw [joinSemiNl_cons q (r :: rs) (by simp)]
      rw [splitSemiNl_boundary q _ hq.2.1]
      rw [ih (by simp) hall2]

theorem map_mk_data (l : List String) : (l.map String.data).map String.mk = l := by
  induction l with
  | nil => rfl
  | cons s ss ihs => exact congrArg (List.cons s) ihs

/-- C5 counterexample: the multi-statement source `A; B` (a semicolon
followed by a space) splits into the statements `A` and `B`, but rejoining
them with the `;`+linebreak delimiter yields `A;\nB`, which differs from the
original trimmed source, refuting the round-trip for arbitrary sources. -/
theorem split_join_counterexample :
    splitStatements ("A; B") = [("A"), ("B")] ∧
    joinStatements (splitStatements ("A; B")) = ("A;\nB") ∧
    joinStatements (splitStatements ("A; B")) ≠ ("A; B") := by
  refine ⟨rfl, rfl, by decide⟩

/-- C5 (amended): the split/rejoin round-trip holds for sources in the
splitter normal form: texts that are the `;`+linebreak join of a non-empty
sequence of statements, each non-empty, none beginning with a whitespace
character and none containing a `;` immediately followed by a whitespace
character.  On such sources the substitution of line 235 is the identity and
splitting on `;`+linebreak recovers exactly the joined statements. -/
theorem split_join_roundtrip (stmts : List String) (hne : stmts ≠ [])
    (hall : ∀ s ∈ stmts, s.data ≠ [] ∧ hasSemiWs s.data = false ∧
      headIsWs s.data = false) :
    splitStatements (joinStatements stmts) = stmts := by
  have hne2 : stmts.map String.data ≠ [] := by
    simpa using hne
  have hall2 : ∀ p ∈ stmts.map String.data,
      p ≠ [] ∧ hasSemiWs p = false ∧ headIsWs p = false := by
    intro p hp
    rcases List.mem_map.mp hp with ⟨s, hs, rfl⟩
    exact hall s hs
  unfold splitStatements joinStatements subSemiWs
  show ((splitSemiNl (subGo false (joinSemiNl (stmts.map String.data)))).filter
      (fun l => !l.isEmpty)).map String.mk = stmts
  rw [subSemiWs_joinSemiNl _ hne2 hall2]
  rw [splitSemiNl_joinSemiNl _ hne2 hall2]
  rw [List.filter_eq_self.mpr (fun p hp => by
    simpa using (hall2 p hp).1)]
  exact map_mk_data stmts

/-- Witness for `split_join_roundtrip` at a concrete two-statement input. -/
theorem split_join_roundtrip_witness :
    splitStatements (joinStatements [("A"), ("B")]) = [("A"), ("B")] :=
  split_join_roundtrip [("A"), ("B")] (by decide) (by decide)

end SqlRunner
